import Mathlib

/-!
Verification of the orbital widget layout / physics engine (orbital-v3.jsx).

The engine arranges widgets on a ring (`computeTargets`), advances them with a
damped-spring integrator, resolves pairwise soft collisions, supports
drag-to-reorder, click-to-resize with a ripple impulse, and add/remove with
reindexing.  All numeric code is embedded over `ℝ`; JavaScript's `Array.sort`
with the `(a, b) => a.order - b.order` comparator is modelled by insertion sort
(the two agree whenever the sort keys are distinct, which the dense-`order`
invariant guarantees).
-/

set_option maxHeartbeats 1000000

namespace Orbital

/-- Widths of the five size categories XS, S, M, L, XL (`SIZE_DIMS[..].w`). -/
def sizeW : Fin 5 → ℝ
  | 0 => 82
  | 1 => 128
  | 2 => 182
  | 3 => 240
  | 4 => 308

/-- Heights of the five size categories XS, S, M, L, XL (`SIZE_DIMS[..].h`). -/
def sizeH : Fin 5 → ℝ
  | 0 => 52
  | 1 => 78
  | 2 => 108
  | 3 => 140
  | 4 => 174

/-- Half of the bounding-box diagonal: `Math.sqrt(d.w*d.w + d.h*d.h) / 2`. -/
noncomputable def halfDiag (i : Fin 5) : ℝ :=
  Real.sqrt (sizeW i * sizeW i + sizeH i * sizeH i) / 2

/-- A widget: immutable `id`, ring rank `order`, size category `sizeIndex`. -/
structure Widget where
  id : ℕ
  order : ℕ
  sizeIndex : Fin 5
deriving DecidableEq, Repr

/-- The JS `[...ws].sort((a, b) => a.order - b.order)` (stable ascending sort
by `order`), modelled by insertion sort. -/
def sortWidgets (ws : List Widget) : List Widget :=
  ws.insertionSort (fun a b => a.order ≤ b.order)

/-- `sorted.map((w, i) => ({ ...w, order: i }))`, reindexing orders densely
starting from `n`. -/
def reindexFrom : ℕ → List Widget → List Widget
  | _, [] => []
  | n, w :: rest => { w with order := n } :: reindexFrom (n + 1) rest

/-- `addWidget`: refuse at 16 widgets, otherwise sort by order, reindex to
`0..N-1`, and append a fresh widget with `order = N` and `sizeIndex = 1`. -/
def addWidget (fresh : ℕ) (ws : List Widget) : List Widget :=
  if 16 ≤ ws.length then ws
  else
    reindexFrom 0 (sortWidgets ws) ++
      [⟨fresh, (reindexFrom 0 (sortWidgets ws)).length, 1⟩]

/-- `removeWidget`: refuse at 1 widget, otherwise sort by order, drop the
last (highest-order) widget, and reindex the rest to `0..N-2`. -/
def removeWidget (ws : List Widget) : List Widget :=
  if ws.length ≤ 1 then ws
  else reindexFrom 0 (sortWidgets ws).dropLast

/-- A layout target: center-relative Cartesian position and ring angle. -/
structure Target where
  x : ℝ
  y : ℝ
  angle : ℝ

/-- An item's slot arc length `halfDiags[i] * 2 + gap`. -/
noncomputable def slotArc (w : Widget) (gap : ℝ) : ℝ :=
  halfDiag w.sizeIndex * 2 + gap

/-- `halfDiags.reduce((s, v) => s + v * 2 + gap, 0)`: the minimum ring
circumference, the sum of all slot arcs. -/
noncomputable def totalArc (ws : List Widget) (gap : ℝ) : ℝ :=
  (ws.map (fun w => slotArc w gap)).sum

/-- The code's angular span `slotArc / (radius * Math.PI * 2) * Math.PI * 2`
of one widget's slot at ring radius `r`. -/
noncomputable def spanOf (w : Widget) (gap r : ℝ) : ℝ :=
  slotArc w gap / (r * Real.pi * 2) * Real.pi * 2

/-- The angle walk of `computeTargets`: starting from accumulated angle `acc`,
place each widget at the midpoint of its span and advance by the span. -/
noncomputable def anglesAux (r gap : ℝ) : List Widget → ℝ → List (ℕ × Target)
  | [], _ => []
  | w :: rest, acc =>
    (w.id, ⟨Real.cos (acc + spanOf w gap r / 2) * r,
            Real.sin (acc + spanOf w gap r / 2) * r,
            acc + spanOf w gap r / 2⟩) :: anglesAux r gap rest (acc + spanOf w gap r)

/-- Result of the layout solver: per-id targets and the solved ring radius. -/
structure LayoutResult where
  targets : List (ℕ × Target)
  radius : ℝ

/-- `computeTargets(widgets, gap, orbitPad)`: empty list gives the fallback
radius 180 and no targets, otherwise sort by `order`, solve
`radius = Math.max(160, totalArc / (Math.PI * 2) + orbitPad)` and walk the
angles starting at the top (`-Math.PI / 2`). -/
noncomputable def computeTargets (ws : List Widget) (gap orbitPad : ℝ) :
    LayoutResult :=
  if ws = [] then ⟨[], 180⟩
  else
    ⟨anglesAux (max 160 (totalArc (sortWidgets ws) gap / (Real.pi * 2) + orbitPad))
        gap (sortWidgets ws) (-Real.pi / 2),
     max 160 (totalArc (sortWidgets ws) gap / (Real.pi * 2) + orbitPad)⟩

/-- Lookup in the association list `targets[id]`. -/
def lookupT : List (ℕ × Target) → ℕ → Option Target
  | [], _ => none
  | (k, v) :: rest, i => if k = i then some v else lookupT rest i

/-- Sum of the angular spans the solver assigns at radius `r`. -/
noncomputable def sumSpans (ws : List Widget) (gap r : ℝ) : ℝ :=
  ((sortWidgets ws).map (fun w => spanOf w gap r)).sum

/-- Modelled from the spec's words in section 4.2, for comparison with the
code's radius: the radius is the circumference-derived value floored at the
minimum absolute radius and **then** inflated by `orbitPad`. -/
noncomputable def radiusSpec (ws : List Widget) (gap orbitPad : ℝ) : ℝ :=
  max 160 (totalArc ws gap / (Real.pi * 2)) + orbitPad

/-- Per-item motion state `{x, y, vx, vy}`. -/
structure Phys where
  x : ℝ
  y : ℝ
  vx : ℝ
  vy : ℝ

/-- The physics store `phy.current`, keyed by widget id. -/
def PhysMap : Type := ℕ → Option Phys

/-- Write one entry of the physics store. -/
def updateP (m : PhysMap) (k : ℕ) (v : Phys) : PhysMap :=
  fun j => if j = k then some v else m j

/-- The tunable parameters read by the frame loop. -/
structure Params where
  gap : ℝ
  orbitPad : ℝ
  stiffness : ℝ
  damping : ℝ
  repulsion : ℝ

/-- The drag session as the frame loop sees it: dragged id and moved flag. -/
structure Drag where
  id : ℕ
  moved : Bool
deriving DecidableEq

/-- `drag.current?.id`. -/
def dragIdOf : Option Drag → Option ℕ
  | some d => some d.id
  | none => none

/-- Engine state at a tick boundary. -/
structure EngineState where
  ws : List Widget
  phys : PhysMap
  drag : Option Drag
  mouse : ℝ × ℝ
  reorderClock : ℕ

/-- `dt = Math.min((now - last) / 16.67, 3)`: elapsed time normalized to the
nominal 60fps frame duration and clamped above at 3. -/
noncomputable def computeDt (elapsed : ℝ) : ℝ :=
  min (elapsed / 16.67) 3

/-- The spring-damper update of one item toward target `t`:
`v = (v + (t - pos) * stiffness * dt) * damping^dt; pos = pos + v`. -/
noncomputable def springStep (p : Params) (dt : ℝ) (pp : Phys) (t : Target) : Phys :=
  ⟨pp.x + (pp.vx + (t.x - pp.x) * p.stiffness * dt) * p.damping ^ dt,
   pp.y + (pp.vy + (t.y - pp.y) * p.stiffness * dt) * p.damping ^ dt,
   (pp.vx + (t.x - pp.x) * p.stiffness * dt) * p.damping ^ dt,
   (pp.vy + (t.y - pp.y) * p.stiffness * dt) * p.damping ^ dt⟩

/-- One widget's update in the integrate phase: a dragged item snaps to the
pointer with zero velocity; others spring toward their target if present. -/
noncomputable def integrateOne (p : Params) (dt : ℝ) (drag : Option Drag)
    (mouse : ℝ × ℝ) (targets : List (ℕ × Target)) (w : Widget) (pp : Phys) :
    Phys :=
  if dragIdOf drag = some w.id then ⟨mouse.1, mouse.2, 0, 0⟩
  else
    match lookupT targets w.id with
    | none => pp
    | some t => springStep p dt pp t

/-- The integrate phase: walk the widget list, updating each widget's motion
state in the store (widgets without a store entry are skipped). -/
noncomputable def integratePhase (p : Params) (dt : ℝ) (drag : Option Drag)
    (mouse : ℝ × ℝ) (targets : List (ℕ × Target)) :
    List Widget → PhysMap → PhysMap
  | [], phys => phys
  | w :: rest, phys =>
    integratePhase p dt drag mouse targets rest
      (match phys w.id with
       | none => phys
       | some pp => updateP phys w.id (integrateOne p dt drag mouse targets w pp))

/-- JavaScript's `Math.atan2(y, x)`. -/
noncomputable def atan2 (y x : ℝ) : ℝ :=
  if 0 < x then Real.arctan (y / x)
  else if x < 0 then
    (if 0 ≤ y then Real.arctan (y / x) + Real.pi else Real.arctan (y / x) - Real.pi)
  else
    (if 0 < y then Real.pi / 2 else if y < 0 then -Real.pi / 2 else 0)

/-- Truncation toward zero, which JavaScript's `%` uses. -/
noncomputable def jsTrunc (z : ℝ) : ℝ :=
  if 0 ≤ z then (⌊z⌋ : ℝ) else (⌈z⌉ : ℝ)

/-- JavaScript's remainder operator `x % m`. -/
noncomputable def jsMod (x m : ℝ) : ℝ :=
  x - m * jsTrunc (x / m)

/-- One pair interaction of the repulsion pass: reads both positions, applies
opposite velocity impulses when the soft collision disks overlap, skipping
the velocity of a dragged member.  `dist` substitutes `0.001` when the raw
distance is zero (the JS `|| 0.001`). -/
noncomputable def collidePair (p : Params) (dt : ℝ) (drag : Option Drag)
    (wa wb : Widget) (pa pb : Phys) : Phys × Phys :=
  let dx := pa.x - pb.x
  let dy := pa.y - pb.y
  let dist0 := Real.sqrt (dx * dx + dy * dy)
  let dist := if dist0 = 0 then 0.001 else dist0
  let minDist := halfDiag wa.sizeIndex + halfDiag wb.sizeIndex + p.gap * 0.5
  if dist < minDist then
    let force := (minDist - dist) / minDist * p.repulsion * dt
    let nx := dx / dist
    let ny := dy / dist
    (if dragIdOf drag = some wa.id then pa
     else ⟨pa.x, pa.y, pa.vx + nx * force, pa.vy + ny * force⟩,
     if dragIdOf drag = some wb.id then pb
     else ⟨pb.x, pb.y, pb.vx - nx * force, pb.vy - ny * force⟩)
  else (pa, pb)

/-- All unordered pairs `(i, j)` with `i < j`, in the nested-loop order. -/
def listPairs : List Widget → List (Widget × Widget)
  | [] => []
  | w :: rest => rest.map (fun v => (w, v)) ++ listPairs rest

/-- One iteration of the repulsion double loop. -/
noncomputable def collideStep (p : Params) (dt : ℝ) (drag : Option Drag)
    (phys : PhysMap) (pair : Widget × Widget) : PhysMap :=
  match phys pair.1.id, phys pair.2.id with
  | some pa, some pb =>
    updateP
      (updateP phys pair.1.id (collidePair p dt drag pair.1 pair.2 pa pb).1)
      pair.2.id (collidePair p dt drag pair.1 pair.2 pa pb).2
  | _, _ => phys

/-- The collision phase: fold the pair interaction over every `i < j` pair. -/
noncomputable def collidePhase (p : Params) (dt : ℝ) (drag : Option Drag)
    (ws : List Widget) (phys : PhysMap) : PhysMap :=
  (listPairs ws).foldl (collideStep p dt drag) phys

/-- The reorder scan over the target entries, tracking the smallest wrapped
angular difference to the dragged item's live angle and the order of the
widget owning that target (`none` plays the initial `Infinity`). -/
noncomputable def bestFold (ws : List Widget) (dragId : ℕ) (dragAngle : ℝ) :
    List (ℕ × Target) → Option ℝ × ℕ → Option ℝ × ℕ
  | [], best => best
  | (tid, t) :: rest, best =>
    if tid = dragId then bestFold ws dragId dragAngle rest best
    else
      match ws.find? (fun w => w.id == tid) with
      | none => bestFold ws dragId dragAngle rest best
      | some tw =>
        match best.1 with
        | none =>
          bestFold ws dragId dragAngle rest
            (some |jsMod (t.angle - dragAngle + Real.pi * 3) (Real.pi * 2) - Real.pi|,
             tw.order)
        | some bd =>
          if |jsMod (t.angle - dragAngle + Real.pi * 3) (Real.pi * 2) - Real.pi| < bd then
            bestFold ws dragId dragAngle rest
              (some |jsMod (t.angle - dragAngle + Real.pi * 3) (Real.pi * 2) - Real.pi|,
               tw.order)
          else bestFold ws dragId dragAngle rest best

/-- The swap performed by the reorder branch: the dragged widget takes
`bestOrder`; the widget found holding `bestOrder` (other than the dragged
one) takes the dragged widget's prior order. -/
def applySwap (ws : List Widget) (dragId bestOrder dwOrder : ℕ) : List Widget :=
  match ws.find? (fun w => w.order == bestOrder && w.id != dragId) with
  | some s =>
    ws.map (fun w =>
      if w.id = dragId then { w with order := bestOrder }
      else if w.id = s.id then { w with order := dwOrder }
      else w)
  | none =>
    ws.map (fun w => if w.id = dragId then { w with order := bestOrder } else w)

/-- The reorder check: with the cooldown already decremented to `clock1`,
when a moved drag session is active and the cooldown elapsed, find the other
widget whose target angle is closest to the dragged item's live angle and
swap orders when the difference is under `π / N * 0.9`; returns the possibly
swapped widget list and the new cooldown. -/
noncomputable def reorderPhase (st : EngineState) (targets : List (ℕ × Target))
    (clock1 : ℕ) : List Widget × ℕ :=
  match st.drag with
  | none => (st.ws, clock1)
  | some d =>
    if d.moved = true ∧ clock1 = 0 then
      match st.phys d.id, st.ws.find? (fun w => w.id == d.id) with
      | some dp, some dw =>
        match bestFold st.ws d.id (atan2 dp.y dp.x) targets (none, dw.order) with
        | (some bdist, bo) =>
          if bo ≠ dw.order ∧ bdist < Real.pi / st.ws.length * 0.9 then
            (applySwap st.ws d.id bo dw.order, 20)
          else (st.ws, clock1)
        | (none, _) => (st.ws, clock1)
      | _, _ => (st.ws, clock1)
    else (st.ws, clock1)

/-- One frame of the RAF loop: compute targets from the current widget list,
run the reorder check, integrate, resolve collisions.  The widget-list update
of a swap is staged through deferred state and lands only in the next tick's
widget list; this tick's integration reads the targets computed at the top of
the tick from the pre-swap order. -/
noncomputable def tick (p : Params) (dt : ℝ) (st : EngineState) : EngineState :=
  ⟨(reorderPhase st (computeTargets st.ws p.gap p.orbitPad).targets
      (st.reorderClock - 1)).1,
   collidePhase p dt st.drag st.ws
     (integratePhase p dt st.drag st.mouse
       (computeTargets st.ws p.gap p.orbitPad).targets st.ws st.phys),
   st.drag, st.mouse,
   (reorderPhase st (computeTargets st.ws p.gap p.orbitPad).targets
      (st.reorderClock - 1)).2⟩

/-- Modelled from the spec's words in section 4.7, for the C7 comparison: the
same tick, except that the integration reads targets recomputed from the
post-swap widget list, so that a swap would take effect in the same tick. -/
noncomputable def tickSpecC7 (p : Params) (dt : ℝ) (st : EngineState) :
    EngineState :=
  ⟨(reorderPhase st (computeTargets st.ws p.gap p.orbitPad).targets
      (st.reorderClock - 1)).1,
   collidePhase p dt st.drag st.ws
     (integratePhase p dt st.drag st.mouse
       (computeTargets
         (reorderPhase st (computeTargets st.ws p.gap p.orbitPad).targets
           (st.reorderClock - 1)).1 p.gap p.orbitPad).targets st.ws st.phys),
   st.drag, st.mouse,
   (reorderPhase st (computeTargets st.ws p.gap p.orbitPad).targets
      (st.reorderClock - 1)).2⟩

/-- One step of the click ripple: a widget other than the clicked one whose
motion state exists gains a radial outward impulse of magnitude `str` along
`atan2` of its current position. -/
noncomputable def rippleStep (i : ℕ) (str : ℝ) (ph : PhysMap) (w : Widget) :
    PhysMap :=
  if w.id = i then ph
  else
    match ph w.id with
    | none => ph
    | some q =>
      updateP ph w.id
        ⟨q.x, q.y, q.vx + Real.cos (atan2 q.y q.x) * str,
         q.vy + Real.sin (atan2 q.y q.x) * str⟩

/-- The click branch of `onUp`: cycle the clicked widget's size category
forward (wrapping via `Fin 5` addition, `(sizeIndex + 1) % SIZES.length`),
then give every other widget with a motion state a radial outward impulse of
strength `2.5 + clicked.sizeIndex * 0.6`, where `clicked` is looked up in the
pre-cycle list (the JS `prev.find(...)` with the `?? 1` fallback). -/
noncomputable def clickResult (ws : List Widget) (phys : PhysMap) (i : ℕ) :
    List Widget × PhysMap :=
  (ws.map (fun w => if w.id = i then { w with sizeIndex := w.sizeIndex + 1 } else w),
   (ws.map (fun w => if w.id = i then { w with sizeIndex := w.sizeIndex + 1 } else w)).foldl
     (rippleStep i
       (2.5 + (match ws.find? (fun v => v.id == i) with
               | some c => ((c.sizeIndex : ℕ) : ℝ)
               | none => 1) * 0.6)) phys)

/-- A concrete XS-sized widget used for concrete evaluations. -/
def wXS : Widget := ⟨1, 0, 0⟩

/-- The dense-permutation invariant: the live `order` values are a
permutation of `0..N-1`. -/
def denseOrders (ws : List Widget) : Prop :=
  (ws.map Widget.order).Perm (List.range ws.length)

instance (ws : List Widget) : Decidable (denseOrders ws) := by
  unfold denseOrders
  infer_instance

/-- The common angular span `(√9428 + 28) / 160` of one XS slot at radius
160 with gap 28. -/
noncomputable def qC7 : ℝ := (Real.sqrt 9428 + 28) / 160

/-- Concrete parameters for the C7 tick: gap 28, no orbit padding, unit
stiffness and damping, no repulsion. -/
noncomputable def pC7 : Params := ⟨28, 0, 1, 1, 0⟩

/-- Concrete engine state for the C7 tick: two XS widgets, the first one
dragged (moved) at `(5, 0)`, the second resting at the origin, cooldown
elapsed. -/
noncomputable def stC7 : EngineState :=
  ⟨[wXS, ⟨2, 1, 0⟩],
   fun k => if k = 1 then some ⟨5, 0, 0, 0⟩
            else if k = 2 then some ⟨0, 0, 0, 0⟩ else none,
   some ⟨1, true⟩, (5, 0), 0⟩

theorem reindexFrom_length (n : ℕ) (l : List Widget) :
    (reindexFrom n l).length = l.length := by
  induction l generalizing n with
  | nil => rfl
  | cons w rest ih => simp [reindexFrom, ih]

theorem sortWidgets_length (ws : List Widget) :
    (sortWidgets ws).length = ws.length := by
  simp [sortWidgets, List.length_insertionSort]

theorem spanOf_eq (w : Widget) (gap r : ℝ) :
    spanOf w gap r = slotArc w gap / r := by
  unfold spanOf
  rcases eq_or_ne r 0 with h | h
  · simp [h]
  · field_simp
    ring

theorem totalArc_sortWidgets (ws : List Widget) (gap : ℝ) :
    totalArc (sortWidgets ws) gap = totalArc ws gap := by
  unfold totalArc sortWidgets
  exact ((List.perm_insertionSort (fun a b => a.order ≤ b.order) ws).map
    (fun w => slotArc w gap)).sum_eq

theorem halfDiag_nonneg (i : Fin 5) : 0 ≤ halfDiag i := by
  unfold halfDiag
  positivity

theorem totalArc_nonneg (ws : List Widget) (gap : ℝ) (hgap : 0 ≤ gap) :
    0 ≤ totalArc ws gap := by
  unfold totalArc
  apply List.sum_nonneg
  intro x hx
  obtain ⟨w, _, rfl⟩ := List.mem_map.mp hx
  unfold slotArc
  have := halfDiag_nonneg w.sizeIndex
  linarith

theorem computeTargets_radius (ws : List Widget) (gap pad : ℝ) (h : ws ≠ []) :
    (computeTargets ws gap pad).radius =
      max 160 (totalArc ws gap / (Real.pi * 2) + pad) := by
  simp [computeTargets, h, totalArc_sortWidgets]

theorem list_sum_div (l : List ℝ) (r : ℝ) :
    (l.map (fun a => a / r)).sum = l.sum / r := by
  induction l with
  | nil => simp
  | cons a rest ih => simp [ih, add_div]

theorem sumSpans_eq_totalArc_div (ws : List Widget) (gap r : ℝ) :
    sumSpans ws gap r = totalArc ws gap / r := by
  unfold sumSpans
  have h1 : ((sortWidgets ws).map (fun w => spanOf w gap r)) =
      ((sortWidgets ws).map (fun w => slotArc w gap)).map (fun a => a / r) := by
    rw [List.map_map]
    exact List.map_congr_left (fun w _ => spanOf_eq w gap r)
  rw [h1, list_sum_div, ← totalArc_sortWidgets ws gap]
  rfl

theorem sqrt9428_lt : Real.sqrt 9428 < 98 := by
  rw [show (98 : ℝ) = Real.sqrt (98 ^ 2) from (Real.sqrt_sq (by norm_num)).symm]
  exact Real.sqrt_lt_sqrt (by norm_num) (by norm_num)

theorem sqrt9428_gt : 97 < Real.sqrt 9428 := by
  rw [show (97 : ℝ) = Real.sqrt (97 ^ 2) from (Real.sqrt_sq (by norm_num)).symm]
  exact Real.sqrt_lt_sqrt (by norm_num) (by norm_num)

theorem halfDiag_zero : halfDiag 0 = Real.sqrt 9428 / 2 := by
  unfold halfDiag
  norm_num [sizeW, sizeH]

theorem totalArc_wXS : totalArc [wXS] 28 = Real.sqrt 9428 + 28 := by
  simp [totalArc, slotArc, wXS]
  rw [halfDiag_zero]
  ring

theorem arc_div_twoPi_lt : (Real.sqrt 9428 + 28) / (Real.pi * 2) < 21 := by
  have hπ : 3 < Real.pi := Real.pi_gt_three
  have hs : Real.sqrt 9428 < 98 := sqrt9428_lt
  rw [div_lt_iff (by linarith)]
  nlinarith

theorem radius_wXS : (computeTargets [wXS] 28 40).radius = 160 := by
  rw [computeTargets_radius _ _ _ (by simp), totalArc_wXS]
  apply max_eq_left
  have := arc_div_twoPi_lt
  linarith

/-- C1 (amended): for any non-empty list and non-negative `gap`, `orbitPad`,
the solver's angular spans sum to `totalArc / radius`, which is at most `2π`
(with equality only when the solved radius is exactly `totalArc / 2π`). -/
theorem layout_spans_sum (ws : List Widget) (gap pad : ℝ)
    (hne : ws ≠ []) (hgap : 0 ≤ gap) (hpad : 0 ≤ pad) :
    sumSpans ws gap (computeTargets ws gap pad).radius =
      totalArc ws gap / (computeTargets ws gap pad).radius ∧
    sumSpans ws gap (computeTargets ws gap pad).radius ≤ Real.pi * 2 := by
  have hr := computeTargets_radius ws gap pad hne
  refine ⟨sumSpans_eq_totalArc_div ws gap _, ?_⟩
  rw [sumSpans_eq_totalArc_div, hr]
  have hT : 0 ≤ totalArc ws gap := totalArc_nonneg ws gap hgap
  have hpi : 0 < Real.pi * 2 := by positivity
  have hrpos : (0:ℝ) < max 160 (totalArc ws gap / (Real.pi * 2) + pad) :=
    lt_of_lt_of_le (by norm_num) (le_max_left _ _)
  have hge : totalArc ws gap / (Real.pi * 2) ≤
      max 160 (totalArc ws gap / (Real.pi * 2) + pad) :=
    le_max_of_le_right (by linarith)
  have h2 : totalArc ws gap ≤
      max 160 (totalArc ws gap / (Real.pi * 2) + pad) * (Real.pi * 2) :=
    (div_le_iff hpi).mp hge
  rw [div_le_iff hrpos]
  nlinarith

/-- C1 witness: the amended claim at a concrete one-widget list. -/
theorem layout_spans_sum_witness :
    sumSpans [wXS] 28 (computeTargets [wXS] 28 40).radius =
      totalArc [wXS] 28 / (computeTargets [wXS] 28 40).radius ∧
    sumSpans [wXS] 28 (computeTargets [wXS] 28 40).radius ≤ Real.pi * 2 :=
  layout_spans_sum [wXS] 28 40 (by simp) (by norm_num) (by norm_num)

/-- C1 counterexample: for a single XS widget with `gap = 28`,
`orbitPad = 40`, the spans sum to `totalArc / 160 < 1`, not `2π`. -/
theorem layout_spans_sum_cex :
    sumSpans [wXS] 28 (computeTargets [wXS] 28 40).radius ≠ Real.pi * 2 := by
  rw [sumSpans_eq_totalArc_div, radius_wXS, totalArc_wXS]
  have hπ : 3 < Real.pi := Real.pi_gt_three
  have hs : Real.sqrt 9428 < 98 := sqrt9428_lt
  have hlt : (Real.sqrt 9428 + 28) / 160 < 1 := by
    rw [div_lt_iff (by norm_num)]
    linarith
  intro h
  rw [h] at hlt
  linarith

/-- C2 (amended): for a non-empty list the solved radius equals
`max(160, totalArc / 2π + orbitPad)` — `orbitPad` is added before the floor
at the minimum radius, not after it. -/
theorem radius_formula (ws : List Widget) (gap pad : ℝ) (hne : ws ≠ []) :
    (computeTargets ws gap pad).radius =
      max 160 (totalArc ws gap / (Real.pi * 2) + pad) :=
  computeTargets_radius ws gap pad hne

/-- C2 witness: the amended radius formula at a concrete one-widget list. -/
theorem radius_formula_witness :
    (computeTargets [wXS] 28 40).radius =
      max 160 (totalArc [wXS] 28 / (Real.pi * 2) + 40) :=
  radius_formula [wXS] 28 40 (by simp)

/-- C2 counterexample: for a single XS widget with `gap = 28`,
`orbitPad = 40` the code's radius is `160` while the spec's formula
`max(160, totalArc / 2π) + orbitPad` gives `200`. -/
theorem radius_formula_cex :
    (computeTargets [wXS] 28 40).radius ≠ radiusSpec [wXS] 28 40 := by
  rw [radius_wXS]
  unfold radiusSpec
  rw [totalArc_wXS]
  have h1 : (Real.sqrt 9428 + 28) / (Real.pi * 2) < 21 := arc_div_twoPi_lt
  rw [max_eq_left (by linarith)]
  norm_num

theorem computeTargets_single (w : Widget) (gap pad : ℝ) :
    (computeTargets [w] gap pad).targets =
      [(w.id,
        ⟨Real.cos (-Real.pi / 2 + spanOf w gap (computeTargets [w] gap pad).radius / 2) *
            (computeTargets [w] gap pad).radius,
          Real.sin (-Real.pi / 2 + spanOf w gap (computeTargets [w] gap pad).radius / 2) *
            (computeTargets [w] gap pad).radius,
          -Real.pi / 2 + spanOf w gap (computeTargets [w] gap pad).radius / 2⟩)] := by
  simp [computeTargets, anglesAux, sortWidgets, List.insertionSort]

/-- C8 (amended): with a single item the target angle is `-π/2` plus half the
item's angular span (the midpoint of its slot walked from the top), and the
target position is `radius · (cos θ, sin θ)`; it is `(0, -radius)` only when
the span vanishes. -/
theorem single_widget_target (w : Widget) (gap pad : ℝ) :
    (computeTargets [w] gap pad).targets =
      [(w.id,
        ⟨Real.cos (-Real.pi / 2 + spanOf w gap (computeTargets [w] gap pad).radius / 2) *
            (computeTargets [w] gap pad).radius,
          Real.sin (-Real.pi / 2 + spanOf w gap (computeTargets [w] gap pad).radius / 2) *
            (computeTargets [w] gap pad).radius,
          -Real.pi / 2 + spanOf w gap (computeTargets [w] gap pad).radius / 2⟩)] :=
  computeTargets_single w gap pad

/-- C8 counterexample: for a single XS widget with `gap = 28`,
`orbitPad = 40` the target angle is not `-π/2` (the span is positive). -/
theorem single_widget_target_cex :
    (lookupT (computeTargets [wXS] 28 40).targets 1).map Target.angle ≠
      some (-Real.pi / 2) := by
  rw [computeTargets_single]
  have hid : wXS.id = 1 := rfl
  rw [hid]
  simp [lookupT]
  have hspan : 0 < spanOf wXS 28 (computeTargets [wXS] 28 40).radius := by
    rw [spanOf_eq, radius_wXS]
    apply div_pos
    · unfold slotArc
      have := halfDiag_nonneg wXS.sizeIndex
      linarith
    · norm_num
  intro h
  linarith

/-- C3: for a live item that is not drag-owned and has a target, one
integrator tick updates velocity componentwise to
`(v + (target - pos) * stiffness * dt) * damping^dt` and then adds the new
velocity to the position, with `dt` the elapsed time normalized to the
nominal frame duration and clamped above at 3. -/
theorem integrator_step (p : Params) (e : ℝ) (drag : Option Drag)
    (mouse : ℝ × ℝ) (targets : List (ℕ × Target)) (w : Widget) (pp : Phys)
    (t : Target) (h1 : dragIdOf drag ≠ some w.id)
    (h2 : lookupT targets w.id = some t) :
    computeDt e ≤ 3 ∧
    integrateOne p (computeDt e) drag mouse targets w pp =
      ⟨pp.x + (pp.vx + (t.x - pp.x) * p.stiffness * computeDt e) *
          p.damping ^ computeDt e,
       pp.y + (pp.vy + (t.y - pp.y) * p.stiffness * computeDt e) *
          p.damping ^ computeDt e,
       (pp.vx + (t.x - pp.x) * p.stiffness * computeDt e) * p.damping ^ computeDt e,
       (pp.vy + (t.y - pp.y) * p.stiffness * computeDt e) * p.damping ^ computeDt e⟩ := by
  refine ⟨min_le_right _ _, ?_⟩
  unfold integrateOne
  rw [if_neg h1, h2]
  rfl

/-- C3 witness: the integrator contract at a concrete widget, target and
elapsed time of one nominal frame. -/
theorem integrator_step_witness :
    computeDt 16.67 ≤ 3 ∧
    integrateOne ⟨28, 40, 0.042, 0.76, 3.5⟩ (computeDt 16.67) none (0, 0)
        [(7, ⟨1, 2, 0⟩)] ⟨7, 0, 1⟩ ⟨0, 0, 0, 0⟩ =
      ⟨0 + (0 + (1 - 0) * 0.042 * computeDt 16.67) * (0.76 : ℝ) ^ computeDt 16.67,
       0 + (0 + (2 - 0) * 0.042 * computeDt 16.67) * (0.76 : ℝ) ^ computeDt 16.67,
       (0 + (1 - 0) * 0.042 * computeDt 16.67) * (0.76 : ℝ) ^ computeDt 16.67,
       (0 + (2 - 0) * 0.042 * computeDt 16.67) * (0.76 : ℝ) ^ computeDt 16.67⟩ :=
  integrator_step ⟨28, 40, 0.042, 0.76, 3.5⟩ 16.67 none (0, 0)
    [(7, ⟨1, 2, 0⟩)] ⟨7, 0, 1⟩ ⟨0, 0, 0, 0⟩ ⟨1, 2, 0⟩
    (by simp [dragIdOf]) (by simp [lookupT])

/-- C4: one pair interaction of the collision resolver.  If the distance
between the two centers is positive and below
`minDist = halfDiag_a + halfDiag_b + gap/2`, each non-dragged member's
velocity gains an impulse of magnitude
`(minDist - dist)/minDist * repulsion * dt` along the unit vector between
the centers (positions untouched); a pair at distance `≥ minDist` is left
unchanged. -/
theorem collide_pair_contract (p : Params) (dt : ℝ) (drag : Option Drag)
    (wa wb : Widget) (pa pb : Phys) :
    (0 < Real.sqrt ((pa.x - pb.x) * (pa.x - pb.x) + (pa.y - pb.y) * (pa.y - pb.y)) →
     Real.sqrt ((pa.x - pb.x) * (pa.x - pb.x) + (pa.y - pb.y) * (pa.y - pb.y)) <
        halfDiag wa.sizeIndex + halfDiag wb.sizeIndex + p.gap * 0.5 →
     collidePair p dt drag wa wb pa pb =
       ((if dragIdOf drag = some wa.id then pa
         else
           ⟨pa.x, pa.y,
            pa.vx + (pa.x - pb.x) /
              Real.sqrt ((pa.x - pb.x) * (pa.x - pb.x) + (pa.y - pb.y) * (pa.y - pb.y)) *
              ((halfDiag wa.sizeIndex + halfDiag wb.sizeIndex + p.gap * 0.5 -
                  Real.sqrt ((pa.x - pb.x) * (pa.x - pb.x) + (pa.y - pb.y) * (pa.y - pb.y))) /
                (halfDiag wa.sizeIndex + halfDiag wb.sizeIndex + p.gap * 0.5) *
                p.repulsion * dt),
            pa.vy + (pa.y - pb.y) /
              Real.sqrt ((pa.x - pb.x) * (pa.x - pb.x) + (pa.y - pb.y) * (pa.y - pb.y)) *
              ((halfDiag wa.sizeIndex + halfDiag wb.sizeIndex + p.gap * 0.5 -
                  Real.sqrt ((pa.x - pb.x) * (pa.x - pb.x) + (pa.y - pb.y) * (pa.y - pb.y))) /
                (halfDiag wa.sizeIndex + halfDiag wb.sizeIndex + p.gap * 0.5) *
                p.repulsion * dt)⟩,
         if dragIdOf drag = some wb.id then pb
         else
           ⟨pb.x, pb.y,
            pb.vx - (pa.x - pb.x) /
              Real.sqrt ((pa.x - pb.x) * (pa.x - pb.x) + (pa.y - pb.y) * (pa.y - pb.y)) *
              ((halfDiag wa.sizeIndex + halfDiag wb.sizeIndex + p.gap * 0.5 -
                  Real.sqrt ((pa.x - pb.x) * (pa.x - pb.x) + (pa.y - pb.y) * (pa.y - pb.y))) /
                (halfDiag wa.sizeIndex + halfDiag wb.sizeIndex + p.gap * 0.5) *
                p.repulsion * dt),
            pb.vy - (pa.y - pb.y) /
              Real.sqrt ((pa.x - pb.x) * (pa.x - pb.x) + (pa.y - pb.y) * (pa.y - pb.y)) *
              ((halfDiag wa.sizeIndex + halfDiag wb.sizeIndex + p.gap * 0.5 -
                  Real.sqrt ((pa.x - pb.x) * (pa.x - pb.x) + (pa.y - pb.y) * (pa.y - pb.y))) /
                (halfDiag wa.sizeIndex + halfDiag wb.sizeIndex + p.gap * 0.5) *
                p.repulsion * dt)⟩)) ∧
     ((pa.x - pb.x) /
         Real.sqrt ((pa.x - pb.x) * (pa.x - pb.x) + (pa.y - pb.y) * (pa.y - pb.y))) ^ 2 +
       ((pa.y - pb.y) /
         Real.sqrt ((pa.x - pb.x) * (pa.x - pb.x) + (pa.y - pb.y) * (pa.y - pb.y))) ^ 2 = 1) ∧
    (halfDiag wa.sizeIndex + halfDiag wb.sizeIndex + p.gap * 0.5 ≤
       Real.sqrt ((pa.x - pb.x) * (pa.x - pb.x) + (pa.y - pb.y) * (pa.y - pb.y)) →
     collidePair p dt drag wa wb pa pb = (pa, pb)) := by
  constructor
  · intro h1 h2
    have hne : Real.sqrt ((pa.x - pb.x) * (pa.x - pb.x) + (pa.y - pb.y) * (pa.y - pb.y)) ≠ 0 :=
      ne_of_gt h1
    constructor
    · simp only [collidePair]
      rw [if_neg hne, if_pos h2]
    · have hSpos : (0:ℝ) < (pa.x - pb.x) * (pa.x - pb.x) + (pa.y - pb.y) * (pa.y - pb.y) :=
        Real.sqrt_pos.mp h1
      have hD2 : Real.sqrt ((pa.x - pb.x) * (pa.x - pb.x) + (pa.y - pb.y) * (pa.y - pb.y)) ^ 2 =
          (pa.x - pb.x) * (pa.x - pb.x) + (pa.y - pb.y) * (pa.y - pb.y) :=
        Real.sq_sqrt hSpos.le
      rw [div_pow, div_pow, hD2, div_add_div_same, div_eq_one_iff_eq hSpos.ne']
      ring
  · intro h
    by_cases hD : Real.sqrt ((pa.x - pb.x) * (pa.x - pb.x) + (pa.y - pb.y) * (pa.y - pb.y)) = 0
    · have hM : halfDiag wa.sizeIndex + halfDiag wb.sizeIndex + p.gap * 0.5 ≤ 0 := by
        rw [hD] at h
        exact h
      simp only [collidePair]
      rw [if_pos hD, if_neg (by norm_num; linarith)]
    · simp only [collidePair]
      rw [if_neg hD, if_neg (not_lt.mpr h)]

/-- C4 witness: an overlapping XS pair at distance 3 receives the impulse;
a pair at distance 1000 is untouched. -/
theorem collide_pair_contract_witness :
    (collidePair ⟨28, 40, 0.042, 0.76, 3.5⟩ 1 none wXS ⟨2, 1, 0⟩
        ⟨3, 0, 0, 0⟩ ⟨0, 0, 0, 0⟩ =
      ((if dragIdOf none = some wXS.id then (⟨3, 0, 0, 0⟩ : Phys)
        else
          ⟨3, 0,
           0 + (3 - 0) / Real.sqrt ((3 - 0) * (3 - 0) + (0 - 0) * (0 - 0)) *
             ((halfDiag wXS.sizeIndex + halfDiag (⟨2, 1, 0⟩ : Widget).sizeIndex + 28 * 0.5 -
                 Real.sqrt ((3 - 0) * (3 - 0) + (0 - 0) * (0 - 0))) /
               (halfDiag wXS.sizeIndex + halfDiag (⟨2, 1, 0⟩ : Widget).sizeIndex + 28 * 0.5) *
               3.5 * 1),
           0 + (0 - 0) / Real.sqrt ((3 - 0) * (3 - 0) + (0 - 0) * (0 - 0)) *
             ((halfDiag wXS.sizeIndex + halfDiag (⟨2, 1, 0⟩ : Widget).sizeIndex + 28 * 0.5 -
                 Real.sqrt ((3 - 0) * (3 - 0) + (0 - 0) * (0 - 0))) /
               (halfDiag wXS.sizeIndex + halfDiag (⟨2, 1, 0⟩ : Widget).sizeIndex + 28 * 0.5) *
               3.5 * 1)⟩,
        if dragIdOf none = some (⟨2, 1, 0⟩ : Widget).id then (⟨0, 0, 0, 0⟩ : Phys)
        else
          ⟨0, 0,
           0 - (3 - 0) / Real.sqrt ((3 - 0) * (3 - 0) + (0 - 0) * (0 - 0)) *
             ((halfDiag wXS.sizeIndex + halfDiag (⟨2, 1, 0⟩ : Widget).sizeIndex + 28 * 0.5 -
                 Real.sqrt ((3 - 0) * (3 - 0) + (0 - 0) * (0 - 0))) /
               (halfDiag wXS.sizeIndex + halfDiag (⟨2, 1, 0⟩ : Widget).sizeIndex + 28 * 0.5) *
               3.5 * 1),
           0 - (0 - 0) / Real.sqrt ((3 - 0) * (3 - 0) + (0 - 0) * (0 - 0)) *
             ((halfDiag wXS.sizeIndex + halfDiag (⟨2, 1, 0⟩ : Widget).sizeIndex + 28 * 0.5 -
                 Real.sqrt ((3 - 0) * (3 - 0) + (0 - 0) * (0 - 0))) /
               (halfDiag wXS.sizeIndex + halfDiag (⟨2, 1, 0⟩ : Widget).sizeIndex + 28 * 0.5) *
               3.5 * 1)⟩))) ∧
    collidePair ⟨28, 40, 0.042, 0.76, 3.5⟩ 1 none wXS ⟨2, 1, 0⟩
        ⟨1000, 0, 0, 0⟩ ⟨0, 0, 0, 0⟩ = (⟨1000, 0, 0, 0⟩, ⟨0, 0, 0, 0⟩) := by
  have hsq3 : Real.sqrt ((3 - 0) * (3 - 0) + (0 - 0) * (0 - 0)) = 3 := by
    norm_num
    rw [show (9:ℝ) = 3 ^ 2 by norm_num, Real.sqrt_sq (by norm_num)]
  have hsqM : Real.sqrt ((1000 - 0) * (1000 - 0) + (0 - 0) * (0 - 0)) = 1000 := by
    norm_num
    rw [show (1000000:ℝ) = 1000 ^ 2 by norm_num, Real.sqrt_sq (by norm_num)]
  have hhd : halfDiag wXS.sizeIndex = Real.sqrt 9428 / 2 := halfDiag_zero
  have hhd2 : halfDiag (⟨2, 1, 0⟩ : Widget).sizeIndex = Real.sqrt 9428 / 2 := halfDiag_zero
  have hs0 : (0:ℝ) ≤ Real.sqrt 9428 := Real.sqrt_nonneg _
  have hs1 : Real.sqrt 9428 < 98 := sqrt9428_lt
  constructor
  · exact ((collide_pair_contract ⟨28, 40, 0.042, 0.76, 3.5⟩ 1 none wXS ⟨2, 1, 0⟩
      ⟨3, 0, 0, 0⟩ ⟨0, 0, 0, 0⟩).1
      (by rw [show Phys.x ⟨3, 0, 0, 0⟩ = 3 from rfl]; rw [hsq3]; norm_num)
      (by rw [hsq3]; rw [hhd, hhd2]; norm_num; linarith)).1
  · exact (collide_pair_contract ⟨28, 40, 0.042, 0.76, 3.5⟩ 1 none wXS ⟨2, 1, 0⟩
      ⟨1000, 0, 0, 0⟩ ⟨0, 0, 0, 0⟩).2
      (by rw [hsqM, hhd, hhd2]; norm_num; linarith)

theorem collidePair_drag_left (p : Params) (dt : ℝ) (drag : Option Drag)
    (wa wb : Widget) (pa pb : Phys) (h : dragIdOf drag = some wa.id) :
    (collidePair p dt drag wa wb pa pb).1 = pa := by
  simp only [collidePair]
  split_ifs <;> simp_all

theorem collidePair_drag_right (p : Params) (dt : ℝ) (drag : Option Drag)
    (wa wb : Widget) (pa pb : Phys) (h : dragIdOf drag = some wb.id) :
    (collidePair p dt drag wa wb pa pb).2 = pb := by
  simp only [collidePair]
  split_ifs <;> simp_all

theorem collidePair_pos (p : Params) (dt : ℝ) (drag : Option Drag)
    (wa wb : Widget) (pa pb : Phys) :
    ((collidePair p dt drag wa wb pa pb).1.x = pa.x ∧
      (collidePair p dt drag wa wb pa pb).1.y = pa.y) ∧
    (collidePair p dt drag wa wb pa pb).2.x = pb.x ∧
      (collidePair p dt drag wa wb pa pb).2.y = pb.y := by
  simp only [collidePair]
  split_ifs <;> simp_all

theorem collideStep_keep (p : Params) (dt : ℝ) (drag : Option Drag)
    (phys : PhysMap) (pair : Widget × Widget) (k : ℕ)
    (h : dragIdOf drag = some k) :
    collideStep p dt drag phys pair k = phys k := by
  unfold collideStep
  cases ha : phys pair.1.id with
  | none => rfl
  | some pa =>
    cases hb : phys pair.2.id with
    | none => rfl
    | some pb =>
      show updateP
        (updateP phys pair.1.id (collidePair p dt drag pair.1 pair.2 pa pb).1)
        pair.2.id (collidePair p dt drag pair.1 pair.2 pa pb).2 k = phys k
      by_cases hk2 : k = pair.2.id
      · subst hk2
        rw [collidePair_drag_right p dt drag pair.1 pair.2 pa pb h]
        simp [updateP, hb]
      · by_cases hk1 : k = pair.1.id
        · subst hk1
          rw [collidePair_drag_left p dt drag pair.1 pair.2 pa pb h]
          simp [updateP, hk2, ha]
        · simp [updateP, hk2, hk1]

theorem collideFold_keep (p : Params) (dt : ℝ) (drag : Option Drag) (k : ℕ)
    (h : dragIdOf drag = some k) :
    ∀ (ps : List (Widget × Widget)) (phys : PhysMap),
      ps.foldl (collideStep p dt drag) phys k = phys k := by
  intro ps
  induction ps with
  | nil => intro phys; rfl
  | cons pair rest ih =>
    intro phys
    rw [List.foldl_cons, ih, collideStep_keep p dt drag phys pair k h]

theorem collidePhase_keep (p : Params) (dt : ℝ) (drag : Option Drag)
    (ws : List Widget) (phys : PhysMap) (k : ℕ)
    (h : dragIdOf drag = some k) :
    collidePhase p dt drag ws phys k = phys k :=
  collideFold_keep p dt drag k h (listPairs ws) phys

theorem collideStep_pos (p : Params) (dt : ℝ) (drag : Option Drag)
    (phys : PhysMap) (pair : Widget × Widget) (k : ℕ) :
    (collideStep p dt drag phys pair k).map (fun q => (q.x, q.y)) =
      (phys k).map (fun q => (q.x, q.y)) := by
  unfold collideStep
  cases ha : phys pair.1.id with
  | none => rfl
  | some pa =>
    cases hb : phys pair.2.id with
    | none => rfl
    | some pb =>
      show (updateP
        (updateP phys pair.1.id (collidePair p dt drag pair.1 pair.2 pa pb).1)
        pair.2.id (collidePair p dt drag pair.1 pair.2 pa pb).2 k).map
          (fun q => (q.x, q.y)) = (phys k).map (fun q => (q.x, q.y))
      by_cases hk2 : k = pair.2.id
      · subst hk2
        simp [updateP, hb,
          (collidePair_pos p dt drag pair.1 pair.2 pa pb).2.1,
          (collidePair_pos p dt drag pair.1 pair.2 pa pb).2.2]
      · by_cases hk1 : k = pair.1.id
        · subst hk1
          simp [updateP, hk2, ha,
            (collidePair_pos p dt drag pair.1 pair.2 pa pb).1.1,
            (collidePair_pos p dt drag pair.1 pair.2 pa pb).1.2]
        · simp [updateP, hk2, hk1]

theorem collideFold_pos (p : Params) (dt : ℝ) (drag : Option Drag) (k : ℕ) :
    ∀ (ps : List (Widget × Widget)) (phys : PhysMap),
      (ps.foldl (collideStep p dt drag) phys k).map (fun q => (q.x, q.y)) =
        (phys k).map (fun q => (q.x, q.y)) := by
  intro ps
  induction ps with
  | nil => intro phys; rfl
  | cons pair rest ih =>
    intro phys
    rw [List.foldl_cons, ih, collideStep_pos p dt drag phys pair k]

theorem collidePhase_pos (p : Params) (dt : ℝ) (drag : Option Drag)
    (ws : List Widget) (phys : PhysMap) (k : ℕ) :
    (collidePhase p dt drag ws phys k).map (fun q => (q.x, q.y)) =
      (phys k).map (fun q => (q.x, q.y)) :=
  collideFold_pos p dt drag k (listPairs ws) phys

theorem integratePhase_keep (p : Params) (dt : ℝ) (drag : Option Drag)
    (mouse : ℝ × ℝ) (targets : List (ℕ × Target)) (k : ℕ)
    (hdrag : dragIdOf drag = some k) :
    ∀ (ws : List Widget) (phys : PhysMap),
      phys k = some ⟨mouse.1, mouse.2, 0, 0⟩ →
      integratePhase p dt drag mouse targets ws phys k =
        some ⟨mouse.1, mouse.2, 0, 0⟩ := by
  intro ws
  induction ws with
  | nil => intro phys hv; exact hv
  | cons w rest ih =>
    intro phys hv
    unfold integratePhase
    cases hw : phys w.id with
    | none => exact ih phys hv
    | some pp =>
      apply ih
      show updateP phys w.id (integrateOne p dt drag mouse targets w pp) k =
        some ⟨mouse.1, mouse.2, 0, 0⟩
      by_cases hk : k = w.id
      · subst hk
        have hone : integrateOne p dt drag mouse targets w pp =
            ⟨mouse.1, mouse.2, 0, 0⟩ := by
          unfold integrateOne
          rw [if_pos hdrag]
        simp [updateP, hone]
      · simp [updateP, hk, hv]

theorem integratePhase_sets (p : Params) (dt : ℝ) (drag : Option Drag)
    (mouse : ℝ × ℝ) (targets : List (ℕ × Target)) (k : ℕ) (w : Widget)
    (hwid : w.id = k) (hdrag : dragIdOf drag = some k) :
    ∀ (ws : List Widget) (phys : PhysMap),
      w ∈ ws → (∃ v, phys k = some v) →
      integratePhase p dt drag mouse targets ws phys k =
        some ⟨mouse.1, mouse.2, 0, 0⟩ := by
  intro ws
  induction ws with
  | nil => intro phys hmem; exact absurd hmem (List.not_mem_nil w)
  | cons w0 rest ih =>
    intro phys hmem hsome
    obtain ⟨v, hv⟩ := hsome
    rcases List.mem_cons.mp hmem with heq | htail
    · subst heq
      unfold integratePhase
      have hv2 : phys w.id = some v := by rw [hwid]; exact hv
      rw [hv2]
      apply integratePhase_keep p dt drag mouse targets k hdrag
      show updateP phys w.id (integrateOne p dt drag mouse targets w v) k =
        some ⟨mouse.1, mouse.2, 0, 0⟩
      have hone : integrateOne p dt drag mouse targets w v =
          ⟨mouse.1, mouse.2, 0, 0⟩ := by
        unfold integrateOne
        rw [if_pos (by rw [hwid]; exact hdrag)]
      simp [updateP, hone, hwid]
    · unfold integratePhase
      cases hw : phys w0.id with
      | none => exact ih phys htail ⟨v, hv⟩
      | some pp =>
        apply ih _ htail
        show ∃ u, updateP phys w0.id (integrateOne p dt drag mouse targets w0 pp) k =
          some u
        by_cases hk : k = w0.id
        · exact ⟨integrateOne p dt drag mouse targets w0 pp, by simp [updateP, hk]⟩
        · exact ⟨v, by simp [updateP, hk, hv]⟩

theorem collidePair_partner (p : Params) (dt : ℝ) (drag : Option Drag)
    (wa wb : Widget) (pa pb : Phys) (hnb : dragIdOf drag ≠ some wb.id) :
    (collidePair p dt drag wa wb pa pb).2 =
      (collidePair p dt none wa wb pa pb).2 := by
  simp only [collidePair]
  split_ifs <;> simp_all [dragIdOf]

/-- C5: while a drag session is active on a widget with a motion-state
entry, the tick publishes exactly the tracked pointer position (with zero
velocity) for it; the pair resolver never modifies the dragged member of a
pair, and a non-dragged partner paired with the dragged widget is updated
exactly as it would be with no drag session at all. -/
theorem dragged_item_tick (p : Params) (dt : ℝ) (st : EngineState) (d : Drag)
    (w : Widget) (pp : Phys)
    (hd : st.drag = some d) (hw : w ∈ st.ws) (hwid : w.id = d.id)
    (hphys : st.phys d.id = some pp) :
    (tick p dt st).phys d.id = some ⟨st.mouse.1, st.mouse.2, 0, 0⟩ ∧
    (∀ (wb : Widget) (pa pb : Phys),
      (collidePair p dt st.drag w wb pa pb).1 = pa) ∧
    (∀ (wa : Widget) (pa pb : Phys),
      (collidePair p dt st.drag wa w pa pb).2 = pb) ∧
    (∀ (wb : Widget) (pa pb : Phys), dragIdOf st.drag ≠ some wb.id →
      (collidePair p dt st.drag w wb pa pb).2 =
        (collidePair p dt none w wb pa pb).2) := by
  have hdrag : dragIdOf st.drag = some d.id := by rw [hd]; rfl
  have hdragw : dragIdOf st.drag = some w.id := by rw [hwid]; exact hdrag
  refine ⟨?_, ?_, ?_, ?_⟩
  · show collidePhase p dt st.drag st.ws
      (integratePhase p dt st.drag st.mouse
        (computeTargets st.ws p.gap p.orbitPad).targets st.ws st.phys) d.id =
      some ⟨st.mouse.1, st.mouse.2, 0, 0⟩
    rw [collidePhase_keep p dt st.drag st.ws _ d.id hdrag]
    exact integratePhase_sets p dt st.drag st.mouse _ d.id w hwid hdrag
      st.ws st.phys hw ⟨pp, hphys⟩
  · intro wb pa pb
    exact collidePair_drag_left p dt st.drag w wb pa pb hdragw
  · intro wa pa pb
    exact collidePair_drag_right p dt st.drag wa w pa pb hdragw
  · intro wb pa pb hnb
    exact collidePair_partner p dt st.drag w wb pa pb hnb

theorem map_swap_perm (l : List ℕ) (a b : ℕ) (hab : l.count a = l.count b) :
    (l.map (Equiv.swap a b)).Perm l := by
  rw [List.perm_iff_count]
  intro x
  have h1 : (l.map (Equiv.swap a b)).count (Equiv.swap a b (Equiv.swap a b x)) =
      l.count (Equiv.swap a b x) :=
    l.count_map_of_injective (Equiv.swap a b) (Equiv.injective _) (Equiv.swap a b x)
  rw [Equiv.swap_apply_self] at h1
  rw [h1]
  rcases eq_or_ne x a with rfl | hxa
  · rw [Equiv.swap_apply_left]
    exact hab.symm
  rcases eq_or_ne x b with rfl | hxb
  · rw [Equiv.swap_apply_right]
    exact hab
  · rw [Equiv.swap_apply_of_ne_of_ne hxa hxb]

/-- Any order the reorder scan can return is either the initial one or the
order of a live widget other than the dragged one. -/
theorem bestFold_order (ws : List Widget) (dragId : ℕ) (ang : ℝ) :
    ∀ (ts : List (ℕ × Target)) (best : Option ℝ × ℕ),
      (bestFold ws dragId ang ts best).2 = best.2 ∨
      ∃ tw ∈ ws, tw.id ≠ dragId ∧ (bestFold ws dragId ang ts best).2 = tw.order := by
  intro ts
  induction ts with
  | nil => intro best; left; rfl
  | cons ht rest ih =>
    intro best
    obtain ⟨tid, t⟩ := ht
    by_cases h1 : tid = dragId
    · show (bestFold ws dragId ang ((tid, t) :: rest) best).2 = best.2 ∨ _
      simp only [bestFold, if_pos h1]
      exact ih best
    · cases hf : ws.find? (fun w => w.id == tid) with
      | none =>
        simp only [bestFold, if_neg h1, hf]
        exact ih best
      | some tw =>
        have htwmem : tw ∈ ws := List.mem_of_find?_eq_some hf
        have htwid : tw.id ≠ dragId := by
          have := List.find?_some hf
          simp at this
          rw [this]
          exact h1
        obtain ⟨b1, b2⟩ := best
        cases b1 with
        | none =>
          simp only [bestFold, if_neg h1, hf]
          rcases ih (some |jsMod (t.angle - ang + Real.pi * 3) (Real.pi * 2) - Real.pi|,
            tw.order) with h | h
          · right
            exact ⟨tw, htwmem, htwid, h⟩
          · right
            exact h
        | some bd =>
          simp only [bestFold, if_neg h1, hf]
          by_cases hlt :
            |jsMod (t.angle - ang + Real.pi * 3) (Real.pi * 2) - Real.pi| < bd
          · rw [if_pos hlt]
            rcases ih (some |jsMod (t.angle - ang + Real.pi * 3) (Real.pi * 2) - Real.pi|,
              tw.order) with h | h
            · right
              exact ⟨tw, htwmem, htwid, h⟩
            · right
              exact h
          · rw [if_neg hlt]
            exact ih (some bd, b2)

/-- C6: under the reorder trigger (the best candidate is a live widget other
than the dragged one, with a different order), the swap gives the dragged
widget the candidate's prior order and the candidate the dragged widget's
prior order, leaves every other widget untouched, and preserves the dense
`0..N-1` permutation of orders. -/
theorem reorder_swap (ws : List Widget) (dragId b : ℕ) (dw tw : Widget)
    (hnodup : (ws.map Widget.id).Nodup)
    (hdense : denseOrders ws)
    (hdw : dw ∈ ws) (hdwid : dw.id = dragId)
    (htw : tw ∈ ws) (htwid : tw.id ≠ dragId) (htworder : tw.order = b)
    (hbneq : b ≠ dw.order) :
    (∀ w2 ∈ applySwap ws dragId b dw.order, w2.id = dragId → w2.order = b) ∧
    (∀ w2 ∈ applySwap ws dragId b dw.order, w2.id = tw.id → w2.order = dw.order) ∧
    (∀ w2 ∈ ws, w2.id ≠ dragId → w2.id ≠ tw.id →
      w2 ∈ applySwap ws dragId b dw.order) ∧
    denseOrders (applySwap ws dragId b dw.order) := by
  have horder : (ws.map Widget.order).Nodup :=
    hdense.nodup_iff.mpr (List.nodup_range _)
  have hidinj : ∀ x ∈ ws, ∀ y ∈ ws, x.id = y.id → x = y :=
    fun x hx y hy h => List.inj_on_of_nodup_map hnodup hx hy h
  have hordinj : ∀ x ∈ ws, ∀ y ∈ ws, x.order = y.order → x = y :=
    fun x hx y hy h => List.inj_on_of_nodup_map horder hx hy h
  have hpred : ((fun w => w.order == b && w.id != dragId) tw) = true := by
    simp [htworder, htwid]
  have hsome : (ws.find? (fun w => w.order == b && w.id != dragId)).isSome =
      true :=
    List.find?_isSome.mpr ⟨tw, htw, hpred⟩
  obtain ⟨s, hs⟩ := Option.isSome_iff_exists.mp hsome
  have hsmem : s ∈ ws := List.mem_of_find?_eq_some hs
  have hsp' := List.find?_some hs
  have hsp : s.order = b ∧ s.id ≠ dragId := by
    simpa using hsp'
  have hstw : s = tw := hordinj s hsmem tw htw (by rw [hsp.1, htworder])
  rw [← hstw] at htw htwid htworder ⊢
  have happly : applySwap ws dragId b dw.order = ws.map (fun w =>
      if w.id = dragId then { w with order := b }
      else if w.id = s.id then { w with order := dw.order } else w) := by
    unfold applySwap
    rw [hs]
  have hfid : ∀ u : Widget,
      (if u.id = dragId then ({ u with order := b } : Widget)
       else if u.id = s.id then { u with order := dw.order } else u).id = u.id := by
    intro u
    split_ifs <;> rfl
  refine ⟨?_, ?_, ?_, ?_⟩
  · intro w2 hw2 hid
    rw [happly] at hw2
    obtain ⟨w, hwmem, rfl⟩ := List.mem_map.mp hw2
    rw [hfid w] at hid
    rw [if_pos hid]
  · intro w2 hw2 hid
    rw [happly] at hw2
    obtain ⟨w, hwmem, rfl⟩ := List.mem_map.mp hw2
    rw [hfid w] at hid
    have h1 : w.id ≠ dragId := by rw [hid]; exact hsp.2
    rw [if_neg h1, if_pos hid]
  · intro w2 hw2 h1 h2
    rw [happly]
    exact List.mem_map.mpr ⟨w2, hw2, by simp [h1, h2]⟩
  · show ((applySwap ws dragId b dw.order).map Widget.order).Perm
      (List.range (applySwap ws dragId b dw.order).length)
    rw [happly, List.length_map]
    have hmapord : ((ws.map (fun w =>
        if w.id = dragId then { w with order := b }
        else if w.id = s.id then { w with order := dw.order } else w)).map
          Widget.order) =
        (ws.map Widget.order).map (Equiv.swap dw.order b) := by
      rw [List.map_map, List.map_map]
      apply List.map_congr_left
      intro w hwmem
      by_cases h1 : w.id = dragId
      · have hwdw : w = dw := hidinj w hwmem dw hdw (by rw [h1, hdwid])
        simp [h1, hwdw, hdwid, Equiv.swap_apply_left]
      · by_cases h2 : w.id = s.id
        · have hws : w = s := hidinj w hwmem s hsmem h2
          simp [h1, h2, hws, hsp.1, hsp.2, Equiv.swap_apply_right]
        · have hword : w.order ≠ dw.order := fun hc =>
            h1 (by rw [hordinj w hwmem dw hdw hc, hdwid])
          have hwb : w.order ≠ b := fun hc =>
            h2 (by rw [hordinj w hwmem s hsmem (by rw [hc, hsp.1])])
          simp [h1, h2, Equiv.swap_apply_of_ne_of_ne hword hwb]
    rw [hmapord]
    have hc1 : (ws.map Widget.order).count dw.order = 1 :=
      List.count_eq_one_of_mem horder (List.mem_map.mpr ⟨dw, hdw, rfl⟩)
    have hc2 : (ws.map Widget.order).count b = 1 :=
      List.count_eq_one_of_mem horder (List.mem_map.mpr ⟨s, hsmem, hsp.1⟩)
    exact (map_swap_perm _ _ _ (hc1.trans hc2.symm)).trans hdense

/-- C6 witness: a concrete three-widget swap. -/
theorem reorder_swap_witness :
    (∀ w2 ∈ applySwap [⟨1, 0, 1⟩, ⟨2, 1, 2⟩, ⟨3, 2, 0⟩] 1 2 0,
      w2.id = 1 → w2.order = 2) ∧
    (∀ w2 ∈ applySwap [⟨1, 0, 1⟩, ⟨2, 1, 2⟩, ⟨3, 2, 0⟩] 1 2 0,
      w2.id = (⟨3, 2, 0⟩ : Widget).id → w2.order = (⟨1, 0, 1⟩ : Widget).order) ∧
    (∀ w2 ∈ [(⟨1, 0, 1⟩ : Widget), ⟨2, 1, 2⟩, ⟨3, 2, 0⟩], w2.id ≠ 1 →
      w2.id ≠ (⟨3, 2, 0⟩ : Widget).id →
      w2 ∈ applySwap [⟨1, 0, 1⟩, ⟨2, 1, 2⟩, ⟨3, 2, 0⟩] 1 2 0) ∧
    denseOrders (applySwap [⟨1, 0, 1⟩, ⟨2, 1, 2⟩, ⟨3, 2, 0⟩] 1 2 0) :=
  reorder_swap [⟨1, 0, 1⟩, ⟨2, 1, 2⟩, ⟨3, 2, 0⟩] 1 2 ⟨1, 0, 1⟩ ⟨3, 2, 0⟩
    (by decide) (by decide) (by decide) (by decide) (by decide) (by decide)
    (by decide) (by decide)

theorem ripple_step_other (i : ℕ) (str : ℝ) (phys : PhysMap) (w0 : Widget)
    (k : ℕ) (h : w0.id ≠ k) : rippleStep i str phys w0 k = phys k := by
  unfold rippleStep
  split_ifs with h1
  · rfl
  · cases hw : phys w0.id with
    | none => rfl
    | some q =>
      show updateP phys w0.id
        ⟨q.x, q.y, q.vx + Real.cos (atan2 q.y q.x) * str,
         q.vy + Real.sin (atan2 q.y q.x) * str⟩ k = phys k
      have hk : ¬(k = w0.id) := fun hc => h hc.symm
      simp [updateP, hk]

theorem ripple_keep (i : ℕ) (str : ℝ) :
    ∀ (l : List Widget) (phys : PhysMap) (k : ℕ),
      (∀ w ∈ l, w.id ≠ k) →
      l.foldl (rippleStep i str) phys k = phys k := by
  intro l
  induction l with
  | nil => intro phys k _; rfl
  | cons w0 rest ih =>
    intro phys k hl
    rw [List.foldl_cons, ih _ k (fun w hw => hl w (List.mem_cons_of_mem _ hw)),
      ripple_step_other i str phys w0 k (hl w0 (List.mem_cons_self _ _))]

theorem ripple_value (i : ℕ) (str : ℝ) :
    ∀ (l : List Widget) (phys : PhysMap) (k : ℕ) (w2 : Widget) (q : Phys),
      (l.map Widget.id).Nodup → w2 ∈ l → w2.id = k → k ≠ i →
      phys k = some q →
      l.foldl (rippleStep i str) phys k =
        some ⟨q.x, q.y, q.vx + Real.cos (atan2 q.y q.x) * str,
              q.vy + Real.sin (atan2 q.y q.x) * str⟩ := by
  intro l
  induction l with
  | nil => intro phys k w2 q _ hmem; exact absurd hmem (List.not_mem_nil _)
  | cons w0 rest ih =>
    intro phys k w2 q hnd hmem hid hki hq
    rw [List.foldl_cons]
    rcases List.mem_cons.mp hmem with heq | htail
    · subst heq
      have hstep : rippleStep i str phys w2 =
          updateP phys k
            ⟨q.x, q.y, q.vx + Real.cos (atan2 q.y q.x) * str,
             q.vy + Real.sin (atan2 q.y q.x) * str⟩ := by
        unfold rippleStep
        rw [if_neg (by rw [hid]; exact hki), hid, hq]
      rw [hstep]
      have hrest : ∀ w ∈ rest, w.id ≠ k := by
        intro w hw hc
        exact (List.nodup_cons.mp hnd).1
          (by rw [hid, ← hc]; exact List.mem_map.mpr ⟨w, hw, rfl⟩)
      rw [ripple_keep i str rest _ k hrest]
      simp [updateP]
    · have h0 : w0.id ≠ k := by
        intro hc
        exact (List.nodup_cons.mp hnd).1
          (by rw [hc, ← hid]; exact List.mem_map.mpr ⟨w2, htail, rfl⟩)
      exact ih (rippleStep i str phys w0) k w2 q (List.nodup_cons.mp hnd).2 htail
        hid hki ((ripple_step_other i str phys w0 k h0).trans hq)

/-- C9 (amended): a click on a widget cycles its size category forward with
wraparound `(sizeIndex + 1) % 5`, and every other live widget with a motion
state receives a radial outward impulse of magnitude
`2.5 + 0.6 × preIndex`, where `preIndex` is the clicked widget's size
category **before** the cycle. -/
theorem click_cycles_and_ripples (ws : List Widget) (phys : PhysMap) (i : ℕ)
    (dw w2 : Widget) (q : Phys)
    (hnodup : (ws.map Widget.id).Nodup)
    (hdw : dw ∈ ws) (hdwid : dw.id = i)
    (hw2 : w2 ∈ ws) (hw2id : w2.id ≠ i) (hq : phys w2.id = some q) :
    (∀ u ∈ (clickResult ws phys i).1, u.id = i →
      (u.sizeIndex : ℕ) = ((dw.sizeIndex : ℕ) + 1) % 5) ∧
    (clickResult ws phys i).2 w2.id =
      some ⟨q.x, q.y,
        q.vx + Real.cos (atan2 q.y q.x) * (2.5 + ((dw.sizeIndex : ℕ) : ℝ) * 0.6),
        q.vy + Real.sin (atan2 q.y q.x) * (2.5 + ((dw.sizeIndex : ℕ) : ℝ) * 0.6)⟩ := by
  have hidinj : ∀ x ∈ ws, ∀ y ∈ ws, x.id = y.id → x = y :=
    fun x hx y hy h => List.inj_on_of_nodup_map hnodup hx hy h
  constructor
  · intro u hu huid
    obtain ⟨w, hwmem, rfl⟩ := List.mem_map.mp hu
    have hfid : (if w.id = i then ({ w with sizeIndex := w.sizeIndex + 1 } : Widget)
        else w).id = w.id := by
      split_ifs <;> rfl
    rw [hfid] at huid
    have hwdw : w = dw := hidinj w hwmem dw hdw (by rw [huid, hdwid])
    subst hwdw
    rw [if_pos huid]
    show ((w.sizeIndex + 1 : Fin 5) : ℕ) = ((w.sizeIndex : ℕ) + 1) % 5
    rw [Fin.add_def]
    rfl
  · have hfind : ws.find? (fun v => v.id == i) = some dw := by
      cases hf : ws.find? (fun v => v.id == i) with
      | none =>
        exfalso
        have := List.find?_eq_none.mp hf dw hdw
        simp [hdwid] at this
      | some c =>
        have hcmem : c ∈ ws := List.mem_of_find?_eq_some hf
        have hcp := List.find?_some hf
        simp at hcp
        rw [hidinj c hcmem dw hdw (by rw [hcp, hdwid])]
    show (ws.map (fun w => if w.id = i then { w with sizeIndex := w.sizeIndex + 1 }
        else w)).foldl (rippleStep i _) phys w2.id = _
    rw [hfind]
    have hpres : (ws.map (fun w => if w.id = i then
        ({ w with sizeIndex := w.sizeIndex + 1 } : Widget) else w)).map Widget.id =
        ws.map Widget.id := by
      rw [List.map_map]
      apply List.map_congr_left
      intro w _
      show (if w.id = i then ({ w with sizeIndex := w.sizeIndex + 1 } : Widget)
        else w).id = w.id
      split_ifs <;> rfl
    exact ripple_value i _ _ phys w2.id w2 q (by rw [hpres]; exact hnodup)
      (List.mem_map.mpr ⟨w2, hw2, by rw [if_neg hw2id]⟩) rfl hw2id hq

/-- C9 witness: the amended claim at a concrete two-widget list. -/
theorem click_cycles_and_ripples_witness :
    (∀ u ∈ (clickResult [⟨1, 0, 1⟩, ⟨2, 1, 0⟩]
        (fun k => if k = 2 then some ⟨1, 0, 0, 0⟩ else none) 1).1, u.id = 1 →
      (u.sizeIndex : ℕ) = (((⟨1, 0, 1⟩ : Widget).sizeIndex : ℕ) + 1) % 5) ∧
    (clickResult [⟨1, 0, 1⟩, ⟨2, 1, 0⟩]
        (fun k => if k = 2 then some ⟨1, 0, 0, 0⟩ else none) 1).2
        (⟨2, 1, 0⟩ : Widget).id =
      some ⟨(1 : ℝ), 0,
        0 + Real.cos (atan2 0 1) * (2.5 + (((⟨1, 0, 1⟩ : Widget).sizeIndex : ℕ) : ℝ) * 0.6),
        0 + Real.sin (atan2 0 1) * (2.5 + (((⟨1, 0, 1⟩ : Widget).sizeIndex : ℕ) : ℝ) * 0.6)⟩ :=
  click_cycles_and_ripples [⟨1, 0, 1⟩, ⟨2, 1, 0⟩]
    (fun k => if k = 2 then some ⟨1, 0, 0, 0⟩ else none) 1 ⟨1, 0, 1⟩ ⟨2, 1, 0⟩
    ⟨1, 0, 0, 0⟩ (by decide) (by simp) (by decide) (by simp) (by decide) (by simp)

/-- C9 counterexample: clicking a widget of size category 1 (post-cycle 2)
gives the other widget an impulse of magnitude `2.5 + 0.6 × 1 = 3.1`, which
is not the post-cycle scaling `2.5 + 0.6 × 2 = 3.7`. -/
theorem click_ripple_cex :
    (clickResult [⟨1, 0, 1⟩, ⟨2, 1, 0⟩]
        (fun k => if k = 2 then some ⟨1, 0, 0, 0⟩ else none) 1).2 2 =
      some ⟨1, 0, 3.1, 0⟩ ∧
    (∀ u ∈ (clickResult [⟨1, 0, 1⟩, ⟨2, 1, 0⟩]
        (fun k => if k = 2 then some ⟨1, 0, 0, 0⟩ else none) 1).1, u.id = 1 →
      (u.sizeIndex : ℕ) = 2) ∧
    (3.1 : ℝ) ≠ 2.5 + 2 * 0.6 := by
  refine ⟨?_, ?_, by norm_num⟩
  · have hat : atan2 0 1 = 0 := by
      unfold atan2
      rw [if_pos (by norm_num : (0:ℝ) < 1)]
      norm_num [Real.arctan_zero]
    simp only [clickResult]
    norm_num [List.find?, rippleStep, updateP, List.foldl_cons, List.foldl_nil,
      hat, Real.cos_zero, Real.sin_zero]
  · intro u hu huid
    simp only [clickResult] at hu
    norm_num at hu
    rcases hu with h | h <;> rw [h] at huid ⊢
    · rfl
    · exact absurd huid (by norm_num)

theorem qC7_pos : 0 < qC7 := by
  unfold qC7
  have := Real.sqrt_nonneg (9428 : ℝ)
  positivity

theorem qC7_lt_one : qC7 < 1 := by
  unfold qC7
  have hs : Real.sqrt 9428 < 98 := sqrt9428_lt
  rw [div_lt_iff (by norm_num)]
  linarith

theorem qC7_gt : (125 : ℝ) / 160 < qC7 := by
  unfold qC7
  have hs : (97 : ℝ) < Real.sqrt 9428 := sqrt9428_gt
  rw [div_lt_div_iff (by norm_num) (by norm_num)]
  linarith

theorem sort_pairXS : sortWidgets [wXS, ⟨2, 1, 0⟩] = [wXS, ⟨2, 1, 0⟩] := by
  decide

theorem sort_pairXS_swapped :
    sortWidgets [(⟨1, 1, 0⟩ : Widget), ⟨2, 0, 0⟩] = [⟨2, 0, 0⟩, ⟨1, 1, 0⟩] := by
  decide

theorem span_XS (w : Widget) (h : w.sizeIndex = 0) : spanOf w 28 160 = qC7 := by
  rw [spanOf_eq]
  unfold slotArc qC7
  rw [h, halfDiag_zero]
  ring

theorem totalArc_pairXS_any (u v : Widget) (hu : u.sizeIndex = 0)
    (hv : v.sizeIndex = 0) :
    totalArc [u, v] 28 = 2 * Real.sqrt 9428 + 56 := by
  simp [totalArc, slotArc, hu, hv]
  rw [halfDiag_zero]
  ring

theorem max_radius_pairXS :
    max (160 : ℝ) ((2 * Real.sqrt 9428 + 56) / (Real.pi * 2) + 0) = 160 := by
  apply max_eq_left
  have hπ : 3 < Real.pi := Real.pi_gt_three
  have hs : Real.sqrt 9428 < 98 := sqrt9428_lt
  have h2 : (2 * Real.sqrt 9428 + 56) / (Real.pi * 2) < 42 := by
    rw [div_lt_iff (by linarith)]
    nlinarith
  linarith

theorem layout_pairXS :
    computeTargets [wXS, ⟨2, 1, 0⟩] 28 0 =
      ⟨[(1, ⟨Real.cos (-Real.pi / 2 + qC7 / 2) * 160,
             Real.sin (-Real.pi / 2 + qC7 / 2) * 160, -Real.pi / 2 + qC7 / 2⟩),
        (2, ⟨Real.cos (-Real.pi / 2 + qC7 + qC7 / 2) * 160,
             Real.sin (-Real.pi / 2 + qC7 + qC7 / 2) * 160,
             -Real.pi / 2 + qC7 + qC7 / 2⟩)], 160⟩ := by
  unfold computeTargets
  rw [if_neg (by simp : ¬([wXS, ⟨2, 1, 0⟩] : List Widget) = []), sort_pairXS,
    totalArc_pairXS_any wXS ⟨2, 1, 0⟩ rfl rfl, max_radius_pairXS]
  simp only [anglesAux]
  rw [span_XS wXS rfl, span_XS ⟨2, 1, 0⟩ rfl]
  rfl

theorem layout_pairXS_swapped :
    computeTargets [(⟨1, 1, 0⟩ : Widget), ⟨2, 0, 0⟩] 28 0 =
      ⟨[(2, ⟨Real.cos (-Real.pi / 2 + qC7 / 2) * 160,
             Real.sin (-Real.pi / 2 + qC7 / 2) * 160, -Real.pi / 2 + qC7 / 2⟩),
        (1, ⟨Real.cos (-Real.pi / 2 + qC7 + qC7 / 2) * 160,
             Real.sin (-Real.pi / 2 + qC7 + qC7 / 2) * 160,
             -Real.pi / 2 + qC7 + qC7 / 2⟩)], 160⟩ := by
  unfold computeTargets
  rw [if_neg (by simp : ¬([(⟨1, 1, 0⟩ : Widget), ⟨2, 0, 0⟩] : List Widget) = []),
    sort_pairXS_swapped, totalArc_pairXS_any ⟨2, 0, 0⟩ ⟨1, 1, 0⟩ rfl rfl,
    max_radius_pairXS]
  simp only [anglesAux]
  rw [span_XS ⟨2, 0, 0⟩ rfl, span_XS ⟨1, 1, 0⟩ rfl]

theorem atan2_zero_five : atan2 0 5 = 0 := by
  unfold atan2
  rw [if_pos (by norm_num : (0:ℝ) < 5)]
  norm_num [Real.arctan_zero]

theorem jsmod_C7 :
    jsMod (Real.pi * (5 / 2) + 3 * qC7 / 2) (Real.pi * 2) =
      Real.pi / 2 + 3 * qC7 / 2 := by
  have hπ : 3 < Real.pi := Real.pi_gt_three
  have hq0 : 0 < qC7 := qC7_pos
  have hq1 : qC7 < 1 := qC7_lt_one
  have hz0 : (0:ℝ) ≤ (Real.pi * (5 / 2) + 3 * qC7 / 2) / (Real.pi * 2) := by
    positivity
  have h1 : (1:ℝ) ≤ (Real.pi * (5 / 2) + 3 * qC7 / 2) / (Real.pi * 2) := by
    rw [le_div_iff (by linarith)]
    linarith
  have h2 : (Real.pi * (5 / 2) + 3 * qC7 / 2) / (Real.pi * 2) < 2 := by
    rw [div_lt_iff (by linarith)]
    linarith
  have hfloor : ⌊(Real.pi * (5 / 2) + 3 * qC7 / 2) / (Real.pi * 2)⌋ = (1:ℤ) := by
    rw [Int.floor_eq_iff]
    constructor
    · exact_mod_cast h1
    · push_cast
      linarith
  unfold jsMod jsTrunc
  rw [if_pos hz0, hfloor]
  push_cast
  ring

theorem diff_C7 :
    |jsMod (-Real.pi / 2 + qC7 + qC7 / 2 - atan2 0 5 + Real.pi * 3)
        (Real.pi * 2) - Real.pi| = Real.pi / 2 - 3 * qC7 / 2 := by
  rw [atan2_zero_five]
  rw [show -Real.pi / 2 + qC7 + qC7 / 2 - 0 + Real.pi * 3 =
    Real.pi * (5 / 2) + 3 * qC7 / 2 by ring]
  rw [jsmod_C7]
  have hπ : 3 < Real.pi := Real.pi_gt_three
  have hq1 : qC7 < 1 := qC7_lt_one
  rw [abs_of_nonpos (by linarith)]
  ring

theorem threshold_C7 : Real.pi / 2 - 3 * qC7 / 2 < Real.pi / 2 * 0.9 := by
  have hπ2 : Real.pi < 3.15 := by
    have := Real.pi_lt_d2
    norm_num at this ⊢
    linarith
  have hq : (125:ℝ) / 160 < qC7 := qC7_gt
  nlinarith

theorem reorder_pairXS :
    reorderPhase stC7 (computeTargets [wXS, ⟨2, 1, 0⟩] 28 0).targets 0 =
      ([⟨1, 1, 0⟩, ⟨2, 0, 0⟩], 20) := by
  rw [layout_pairXS]
  simp only [reorderPhase, stC7, bestFold, wXS]
  norm_num [List.find?, diff_C7]
  rw [show ((1:ℕ) == 2) = false from rfl]
  have hlt : Real.pi / 2 - 3 * qC7 / 2 < Real.pi / 2 * (9 / 10) := by
    have := threshold_C7
    norm_num at this ⊢
    linarith
  simp only []
  rw [if_pos ⟨by norm_num, hlt⟩]
  rw [show applySwap [(⟨1, 0, 0⟩ : Widget), ⟨2, 1, 0⟩] 1 1 0 =
    [⟨1, 1, 0⟩, ⟨2, 0, 0⟩] from by decide]

theorem integrate_pairXS (targets : List (ℕ × Target)) (t : Target)
    (ht : lookupT targets 2 = some t) :
    integratePhase pC7 1 stC7.drag stC7.mouse targets stC7.ws stC7.phys 2 =
      some ⟨t.x, t.y, t.x, t.y⟩ := by
  have honeB : integrateOne pC7 1 stC7.drag stC7.mouse targets ⟨2, 1, 0⟩
      ⟨0, 0, 0, 0⟩ = ⟨t.x, t.y, t.x, t.y⟩ := by
    unfold integrateOne
    rw [if_neg (by simp [stC7, dragIdOf]), ht]
    unfold springStep
    simp [pC7, Real.one_rpow]
  show (updateP
      (updateP stC7.phys wXS.id
        (integrateOne pC7 1 stC7.drag stC7.mouse targets wXS ⟨5, 0, 0, 0⟩))
      (2 : ℕ)
      (integrateOne pC7 1 stC7.drag stC7.mouse targets ⟨2, 1, 0⟩ ⟨0, 0, 0, 0⟩)) 2 =
    some ⟨t.x, t.y, t.x, t.y⟩
  rw [honeB]
  simp [updateP]

/-- C5 witness: the dragged-item contract at a concrete dragged state. -/
theorem dragged_item_tick_witness :
    (tick pC7 1 stC7).phys 1 = some ⟨5, 0, 0, 0⟩ ∧
    (∀ (wb : Widget) (pa pb : Phys),
      (collidePair pC7 1 stC7.drag wXS wb pa pb).1 = pa) ∧
    (∀ (wa : Widget) (pa pb : Phys),
      (collidePair pC7 1 stC7.drag wa wXS pa pb).2 = pb) ∧
    (∀ (wb : Widget) (pa pb : Phys), dragIdOf stC7.drag ≠ some wb.id →
      (collidePair pC7 1 stC7.drag wXS wb pa pb).2 =
        (collidePair pC7 1 none wXS wb pa pb).2) :=
  dragged_item_tick pC7 1 stC7 ⟨1, true⟩ wXS ⟨5, 0, 0, 0⟩ rfl
    (by simp [stC7]) rfl rfl

/-- C7 counterexample: at a concrete two-widget state where the reorder
swap triggers, the tick publishes the swapped widget list, yet the physics
integration of that same tick has moved the non-dragged widget toward its
pre-swap target, not the post-swap target the spec's ordering would give. -/
theorem tick_preswap_targets_cex :
    (tick pC7 1 stC7).ws = [⟨1, 1, 0⟩, ⟨2, 0, 0⟩] ∧
    ((tick pC7 1 stC7).phys 2).map (fun v => (v.x, v.y)) ≠
      ((tickSpecC7 pC7 1 stC7).phys 2).map (fun v => (v.x, v.y)) := by
  constructor
  · show (reorderPhase stC7 (computeTargets [wXS, ⟨2, 1, 0⟩] 28 0).targets 0).1 = _
    rw [reorder_pairXS]
  · have hpre : ((tick pC7 1 stC7).phys 2).map (fun v => (v.x, v.y)) =
        some (Real.cos (-Real.pi / 2 + qC7 + qC7 / 2) * 160,
              Real.sin (-Real.pi / 2 + qC7 + qC7 / 2) * 160) := by
      show ((collidePhase pC7 1 stC7.drag stC7.ws
        (integratePhase pC7 1 stC7.drag stC7.mouse
          (computeTargets stC7.ws pC7.gap pC7.orbitPad).targets stC7.ws
          stC7.phys)) 2).map (fun v => (v.x, v.y)) = _
      rw [collidePhase_pos]
      have ht : lookupT (computeTargets stC7.ws pC7.gap pC7.orbitPad).targets 2 =
          some ⟨Real.cos (-Real.pi / 2 + qC7 + qC7 / 2) * 160,
                Real.sin (-Real.pi / 2 + qC7 + qC7 / 2) * 160,
                -Real.pi / 2 + qC7 + qC7 / 2⟩ := by
        show lookupT (computeTargets [wXS, ⟨2, 1, 0⟩] 28 0).targets 2 = _
        rw [layout_pairXS]
        simp [lookupT]
      rw [integrate_pairXS _ _ ht]
      rfl
    have hpost : ((tickSpecC7 pC7 1 stC7).phys 2).map (fun v => (v.x, v.y)) =
        some (Real.cos (-Real.pi / 2 + qC7 / 2) * 160,
              Real.sin (-Real.pi / 2 + qC7 / 2) * 160) := by
      show ((collidePhase pC7 1 stC7.drag stC7.ws
        (integratePhase pC7 1 stC7.drag stC7.mouse
          (computeTargets
            (reorderPhase stC7
              (computeTargets stC7.ws pC7.gap pC7.orbitPad).targets
              (stC7.reorderClock - 1)).1 pC7.gap pC7.orbitPad).targets
          stC7.ws stC7.phys)) 2).map (fun v => (v.x, v.y)) = _
      rw [collidePhase_pos]
      have hws : (reorderPhase stC7
          (computeTargets stC7.ws pC7.gap pC7.orbitPad).targets
          (stC7.reorderClock - 1)).1 = [⟨1, 1, 0⟩, ⟨2, 0, 0⟩] := by
        show (reorderPhase stC7 (computeTargets [wXS, ⟨2, 1, 0⟩] 28 0).targets 0).1 = _
        rw [reorder_pairXS]
      rw [hws, show pC7.gap = 28 from rfl, show pC7.orbitPad = 0 from rfl]
      have ht2 : lookupT
          (computeTargets [(⟨1, 1, 0⟩ : Widget), ⟨2, 0, 0⟩] 28 0).targets 2 =
          some ⟨Real.cos (-Real.pi / 2 + qC7 / 2) * 160,
                Real.sin (-Real.pi / 2 + qC7 / 2) * 160,
                -Real.pi / 2 + qC7 / 2⟩ := by
        rw [layout_pairXS_swapped]
        simp [lookupT]
      rw [integrate_pairXS _ _ ht2]
      rfl
    rw [hpre, hpost]
    intro hc
    have hx : Real.cos (-Real.pi / 2 + qC7 + qC7 / 2) * 160 =
        Real.cos (-Real.pi / 2 + qC7 / 2) * 160 :=
      congrArg Prod.fst (Option.some.inj hc)
    have hπ : 3 < Real.pi := Real.pi_gt_three
    have hq0 : 0 < qC7 := qC7_pos
    have hq1 : qC7 < 1 := qC7_lt_one
    have e1 : Real.cos (-Real.pi / 2 + qC7 + qC7 / 2) =
        Real.sin (qC7 + qC7 / 2) := by
      rw [show -Real.pi / 2 + qC7 + qC7 / 2 = qC7 + qC7 / 2 - Real.pi / 2 by ring,
        Real.cos_sub_pi_div_two]
    have e2 : Real.cos (-Real.pi / 2 + qC7 / 2) = Real.sin (qC7 / 2) := by
      rw [show -Real.pi / 2 + qC7 / 2 = qC7 / 2 - Real.pi / 2 by ring,
        Real.cos_sub_pi_div_two]
    rw [e1, e2] at hx
    have hmono : Real.sin (qC7 / 2) < Real.sin (qC7 + qC7 / 2) := by
      apply Real.strictMonoOn_sin
      · exact Set.mem_Icc.mpr ⟨by linarith, by linarith⟩
      · exact Set.mem_Icc.mpr ⟨by linarith, by linarith⟩
      · linarith
    linarith

/-- C7 (amended): the motion state a tick publishes is computed from targets
solved on the tick-start (pre-swap) widget list, and is unchanged if the
reorder check is suppressed altogether (here by a not-yet-elapsed cooldown):
a triggered swap reaches only the published widget list, hence only the next
tick's targets. -/
theorem tick_uses_preswap_targets (p : Params) (dt : ℝ) (st : EngineState) :
    (tick p dt st).phys =
      collidePhase p dt st.drag st.ws
        (integratePhase p dt st.drag st.mouse
          (computeTargets st.ws p.gap p.orbitPad).targets st.ws st.phys) ∧
    (tick p dt st).phys = (tick p dt { st with reorderClock := 21 }).phys :=
  ⟨rfl, rfl⟩

/-- C10: with between 1 and 16 live widgets, `addWidget` and `removeWidget`
keep the count within `[1, 16]`; `addWidget` is the identity at exactly 16
widgets and `removeWidget` is the identity at exactly 1. -/
theorem add_remove_widget_bounds (fresh : ℕ) (ws : List Widget)
    (h1 : 1 ≤ ws.length) (h16 : ws.length ≤ 16) :
    (1 ≤ (addWidget fresh ws).length ∧ (addWidget fresh ws).length ≤ 16) ∧
    (1 ≤ (removeWidget ws).length ∧ (removeWidget ws).length ≤ 16) ∧
    (ws.length = 16 → addWidget fresh ws = ws) ∧
    (ws.length = 1 → removeWidget ws = ws) := by
  refine ⟨?_, ?_, ?_, ?_⟩
  · unfold addWidget
    by_cases hc : 16 ≤ ws.length
    · simp [hc]
      omega
    · simp [hc, reindexFrom_length, sortWidgets_length]
      omega
  · unfold removeWidget
    by_cases hc : ws.length ≤ 1
    · simp [hc]
      omega
    · simp [hc, reindexFrom_length, sortWidgets_length, List.length_dropLast]
      omega
  · intro h
    unfold addWidget
    simp [h]
  · intro h
    unfold removeWidget
    simp [h]

/-- C10 witness: a concrete 1-widget list stays within the bounds. -/
theorem add_remove_widget_bounds_witness :
    (1 ≤ (addWidget 2 [⟨1, 0, 1⟩]).length ∧ (addWidget 2 [⟨1, 0, 1⟩]).length ≤ 16) ∧
    (1 ≤ (removeWidget [⟨1, 0, 1⟩]).length ∧ (removeWidget [⟨1, 0, 1⟩]).length ≤ 16) ∧
    (([⟨1, 0, 1⟩] : List Widget).length = 16 → addWidget 2 [⟨1, 0, 1⟩] = [⟨1, 0, 1⟩]) ∧
    (([⟨1, 0, 1⟩] : List Widget).length = 1 → removeWidget [⟨1, 0, 1⟩] = [⟨1, 0, 1⟩]) :=
  add_remove_widget_bounds 2 [⟨1, 0, 1⟩] (by decide) (by decide)

end Orbital
